import Mathlib

/-!
Verification of the messenger-analyzer ingestion pipeline.

This file gives a shallow embedding in Lean 4 of the pipeline's core source
files:

  src/adapters/index.js           (detectFormat, parseConversation,
                                   parseConversations, parseWhatsAppFormat,
                                   parseLineFormat and their helpers)
  src/adapters/jsonAdapter.js     (decodeFacebookText, parseFacebookJSON,
                                   parseInstagramJSON)
  src/utils/conversationMerger.js (mergeConversations, createIdentityMap,
                                   groupConversationsByIdentity,
                                   mergeConversationGroup,
                                   getCanonicalParticipants,
                                   createMergedTitle)

Modelling conventions, fixed once here:

* JavaScript strings are Lean `String`s (sequences of Unicode scalar values;
  the inputs appearing in the theorems contain no surrogate pairs, so the
  UTF-16 distinction is immaterial).
* A JS `Map` is an insertion-ordered association list `JSMap` (Map
  iteration is always insertion-ordered); only `get` and `set` are used by
  the source.  A plain JS object used as a dictionary (the `groups` object
  of the merger) is kept as the association list of its properties in
  insertion order, and `Object.values` enumerates it through
  `jsObjectEntriesOrder`, which fronts array-index keys in ascending
  numeric order, per the ECMA-262 ordinary own property key order.
* `undefined`/missing JSON fields are `Option.none`; JS truthiness of each
  field is spelled out at its use site (empty string and 0 are falsy, an
  array — even an empty one — is truthy).
* A thrown JS exception is `Except.error` carrying the message string.
* `new Date(y, m, d, hh, mm).getTime()` is modelled as the epoch-millisecond
  count of that civil date/time at UTC offset zero (the source runs in the
  browser's local zone; the claims under verification do not depend on the
  zone offset).
* `JSON.parse` and the JSON sub-format dispatch consume raw text; JSON
  parsing is a host builtin, not repository code, so the JSON adapters are
  embedded directly over already-structured records (`FBData`, `IGData`),
  and the router is parameterised by the function used for the json branch.
-/

/-! ### Generic string helpers (models of JS string builtins) -/

/-- Model of the JS whitespace class used by `trim` and by the regex class
code `\s` (the members that can occur in the inputs at hand; `\n` never
occurs inside a line because lines come from `split('\n')`). -/
def jsWhitespace (c : Char) : Bool :=
  c = ' ' || c = '\t' || c = '\n' || c = '\r' ||
  c = '\x0b' || c = '\x0c' || c = ' ' || c = '﻿'

/-- Model of `String.prototype.split(sep)` for a one-character separator:
keeps empty fields, including a trailing one. -/
def splitOnChar (sep : Char) : List Char → List (List Char)
  | [] => [[]]
  | c :: cs =>
    let r := splitOnChar sep cs
    if c = sep then [] :: r
    else
      match r with
      | [] => [[c]]
      | h :: t => (c :: h) :: t

/-- Model of `content.split('\n')`. -/
def splitLines (s : String) : List String :=
  (splitOnChar '\x0a' s.data).map List.asString

/-- Model of `String.prototype.trim()`. -/
def jsTrim (s : String) : String :=
  (((s.data.dropWhile jsWhitespace).reverse.dropWhile jsWhitespace).reverse).asString

/-- Model of `String.prototype.toLowerCase()` (ASCII range, which covers the
file names and extensions the detector inspects). -/
def jsToLower (s : String) : String :=
  (s.data.map Char.toLower).asString

/-- Model of `String.prototype.endsWith(suffix)`. -/
def jsEndsWith (s suffixStr : String) : Bool :=
  List.isSuffixOf suffixStr.data s.data

/-- Model of `String.prototype.startsWith(prefixStr)`. -/
def jsStartsWith (s prefixStr : String) : Bool :=
  List.isPrefixOf prefixStr.data s.data

/-- Infix test on lists of characters (used for `includes`). -/
def infixOfList (needle : List Char) : List Char → Bool
  | [] => List.isPrefixOf needle []
  | c :: cs => List.isPrefixOf needle (c :: cs) || infixOfList needle cs

/-- Model of `String.prototype.includes(needle)`. -/
def jsIncludes (s needle : String) : Bool :=
  infixOfList needle.data s.data

/-- Model of `Array.prototype.join(sep)` for an array of strings. -/
def jsJoin (sep : String) (l : List String) : String :=
  String.intercalate sep l

/-- Replacement of the first occurrence of a (nonempty, literal) pattern,
the behaviour of JS `String.prototype.replace(string, string)`.  Returns the
string unchanged when the pattern does not occur. -/
def replaceFirstAux (pat rep : List Char) : List Char → List Char
  | [] => []
  | c :: cs =>
    if List.isPrefixOf pat (c :: cs) then rep ++ (c :: cs).drop pat.length
    else c :: replaceFirstAux pat rep cs

/-- Model of `s.replace(pat, rep)` with string `pat` (first occurrence only). -/
def jsReplaceFirst (s pat rep : String) : String :=
  (replaceFirstAux pat.data rep.data s.data).asString

/-- Digit test for the regex class `\d` (ASCII digits). -/
def isDig (c : Char) : Bool := '0' ≤ c && c ≤ '9'

/-- Numeric value of a list of ASCII digits, the model of JS `Number(...)`
and `parseInt(...)` on the all-digit capture groups produced by the regexes
below. -/
def digitsToNat : List Char → Nat
  | [] => 0
  | c :: cs => digitsToNat cs + (c.toNat - 48) * 10 ^ cs.length

/-! ### JS collection helpers -/

/-- Model of a JS `Map` (insertion-ordered; `set` of an existing key updates
in place, `set` of a fresh key appends). -/
abbrev JSMap (α : Type) : Type := List (String × α)

/-- Model of `Map.prototype.set`. -/
def mapSet {α : Type} (m : JSMap α) (k : String) (v : α) : JSMap α :=
  if (List.any m (fun p => p.1 = k)) then
    List.map (fun p => if p.1 = k then (k, v) else p) m
  else m ++ [(k, v)]

/-- Model of `Map.prototype.get` (`none` for a missing key). -/
def mapGet {α : Type} (m : JSMap α) (k : String) : Option α :=
  (List.find? (fun p => p.1 = k) m).map (fun p => p.2)

/-- Model of `Set.prototype.add` on a JS `Set` of strings kept as its
insertion-ordered element list. -/
def setAdd (s : List String) (x : String) : List String :=
  if x ∈ s then s else s ++ [x]

/-- Model of `[...new Set(array)]`: deduplication keeping first occurrences
in order. -/
def jsSetOfList (l : List String) : List String :=
  l.foldl setAdd []

/-! ### Normalized data model (the shared Conversation schema) -/

/-- Normalized message record produced by every adapter.  The JS object also
carries a `date : Date` field derived from the timestamp; it is modelled by
the epoch-millisecond integer `date`, always equal to `timestamp`.  The
`metadata` sub-object is flattened into `isUnsent`, `reactions`,
`mediaType`.  The merger's in-place sender rewrite adds `originalSender`;
before the rewrite the field is absent, modelled as `none`. -/
structure Message where
  sender : String
  content : String
  timestamp : Int
  date : Int
  type : String
  isUnsent : Bool
  reactions : List String
  mediaType : Option String
  originalSender : Option String := none
deriving DecidableEq

/-- Normalized participant record.  Adapter output has only the first three
fields; the merger's canonical participants add `alternateNames` and
`platforms`, absent (empty) on adapter output. -/
structure Participant where
  name : String
  platform : String
  rawIdentifier : String
  alternateNames : List String := []
  platforms : List String := []
deriving DecidableEq

/-- Provenance record kept on a merged conversation. -/
structure SourceConversation where
  title : String
  source : String
  messageCount : Nat
  dateRangeStart : Option Int
  dateRangeEnd : Option Int
deriving DecidableEq

/-- Normalized conversation record.  `dateRange` is flattened into its two
fields; a `null` bound is `none`. -/
structure Conversation where
  source : String
  conversationId : String
  title : String
  participants : List Participant
  messages : List Message
  dateRangeStart : Option Int
  dateRangeEnd : Option Int
  totalMessages : Nat
  isMerged : Bool := false
  sourceConversations : List SourceConversation := []
  rawFileName : String := ""
deriving DecidableEq

/-- Placeholder conversation used only to totalise list indexing in closed
witness statements. -/
def defaultConversation : Conversation :=
  { source := "", conversationId := "", title := "", participants := [],
    messages := [], dateRangeStart := none, dateRangeEnd := none,
    totalMessages := 0 }

/-! ### Date model -/

/-- Days from the civil epoch 1970-01-01 for a Gregorian civil date, the
standard days-from-civil computation with truncating integer division (the
arithmetic JS `Date` performs internally). -/
def daysFromCivil (y m d : Int) : Int :=
  let y1 : Int := if m ≤ 2 then y - 1 else y
  let era : Int := (if 0 ≤ y1 then y1 else y1 - 399) / 400
  let yoe : Int := y1 - era * 400
  let mp : Int := if 2 < m then m - 3 else m + 9
  let doy : Int := (153 * mp + 2) / 5 + d - 1
  let doe : Int := yoe * 365 + yoe / 4 - yoe / 100 + doy
  era * 146097 + doe - 719468

/-- Model of `new Date(year, month - 1, day, hours, minutes, 0, 0).getTime()`
at UTC offset zero: epoch milliseconds.  `month` is the civil month 1–12 as
written in the export (the source subtracts 1 to obtain the JS month
index, which `Date` adds back). -/
def civilMs (y m d hh mm : Int) : Int :=
  daysFromCivil y m d * 86400000 + hh * 3600000 + mm * 60000

/-! ### decodeFacebookText (jsonAdapter.js lines 6–15)

The source is `decodeURIComponent(escape(text))` inside try/catch.  `escape`
and `decodeURIComponent` are host builtins; they are modelled here following
their ECMA-262 definitions (the strict UTF-8 decoder of
`decodeURIComponent`, which throws — modelled as `none` — on malformed
sequences, including the `%uXXXX` forms `escape` emits for code points
above U+00FF). -/

/-- Uppercase hexadecimal digit character of a value below 16. -/
def hexDigitUpper (n : Nat) : Char :=
  if n < 10 then Char.ofNat (48 + n) else Char.ofNat (55 + n)

/-- Two-digit uppercase hex rendering of a byte. -/
def hexByte (n : Nat) : List Char :=
  [hexDigitUpper (n / 16 % 16), hexDigitUpper (n % 16)]

/-- Characters `escape` leaves unencoded: ASCII alphanumerics and
the seven marks `@ * _ + - . /`. -/
def escapeKeeps (c : Char) : Bool :=
  ('A' ≤ c && c ≤ 'Z') || ('a' ≤ c && c ≤ 'z') || ('0' ≤ c && c ≤ '9') ||
  c = '@' || c = '*' || c = '_' || c = '+' || c = '-' || c = '.' || c = '/'

/-- Model of the `escape` builtin on one UTF-16 code unit value. -/
def escapeUnit (u : Nat) : List Char :=
  if u < 256 then
    if escapeKeeps (Char.ofNat u) then [Char.ofNat u] else '%' :: hexByte u
  else '%' :: 'u' :: [hexDigitUpper (u / 4096 % 16), hexDigitUpper (u / 256 % 16),
                      hexDigitUpper (u / 16 % 16), hexDigitUpper (u % 16)]

/-- UTF-16 code units of one Unicode scalar value (surrogate pair above
U+FFFF). -/
def utf16Units (c : Char) : List Nat :=
  if c.toNat < 65536 then [c.toNat]
  else
    let v := c.toNat - 65536
    [55296 + v / 1024, 56320 + v % 1024]

/-- Model of the `escape` builtin. -/
def jsEscape (s : String) : String :=
  ((s.data.flatMap utf16Units).flatMap escapeUnit).asString

/-- Value of one hexadecimal digit character, `none` for a non-hex-digit. -/
def hexVal (c : Char) : Option Nat :=
  if '0' ≤ c && c ≤ '9' then some (c.toNat - 48)
  else if 'A' ≤ c && c ≤ 'F' then some (c.toNat - 55)
  else if 'a' ≤ c && c ≤ 'f' then some (c.toNat - 87)
  else none

/-- Percent-token scan of `decodeURIComponent`: each `%XX` becomes an
encoded byte, every other character stays literal; a `%` not followed by
two hex digits is a URIError (`none`). -/
def uriTokens : List Char → Option (List (Sum Char Nat))
  | [] => some []
  | '%' :: c1 :: c2 :: rest =>
    match hexVal c1, hexVal c2 with
    | some h, some l => (uriTokens rest).map (fun ts => Sum.inr (h * 16 + l) :: ts)
    | _, _ => none
  | '%' :: _ => none
  | c :: rest => (uriTokens rest).map (fun ts => Sum.inl c :: ts)

/-- Continuation-byte test for the strict UTF-8 decoder. -/
def isCont (b : Nat) : Bool := 128 ≤ b && b ≤ 191

/-- Strict UTF-8 decoding of the token stream (ECMA-262 decode: overlong
forms, surrogate code points and out-of-range sequences throw). -/
def utf8Decode : List (Sum Char Nat) → Option (List Char)
  | [] => some []
  | Sum.inl c :: rest => (utf8Decode rest).map (fun cs => c :: cs)
  | Sum.inr b :: rest =>
    if b < 128 then (utf8Decode rest).map (fun cs => Char.ofNat b :: cs)
    else if 194 ≤ b && b ≤ 223 then
      match rest with
      | Sum.inr b2 :: rest2 =>
        if isCont b2 then
          (utf8Decode rest2).map (fun cs => Char.ofNat ((b - 192) * 64 + (b2 - 128)) :: cs)
        else none
      | _ => none
    else if 224 ≤ b && b ≤ 239 then
      match rest with
      | Sum.inr b2 :: Sum.inr b3 :: rest2 =>
        if (if b = 224 then 160 ≤ b2 && b2 ≤ 191
            else if b = 237 then 128 ≤ b2 && b2 ≤ 159
            else isCont b2) && isCont b3 then
          (utf8Decode rest2).map
            (fun cs => Char.ofNat ((b - 224) * 4096 + (b2 - 128) * 64 + (b3 - 128)) :: cs)
        else none
      | _ => none
    else if 240 ≤ b && b ≤ 244 then
      match rest with
      | Sum.inr b2 :: Sum.inr b3 :: Sum.inr b4 :: rest2 =>
        if (if b = 240 then 144 ≤ b2 && b2 ≤ 191
            else if b = 244 then 128 ≤ b2 && b2 ≤ 143
            else isCont b2) && isCont b3 && isCont b4 then
          (utf8Decode rest2).map (fun cs =>
            Char.ofNat ((b - 240) * 262144 + (b2 - 128) * 4096 + (b3 - 128) * 64 + (b4 - 128)) :: cs)
        else none
      | _ => none
    else none

/-- Model of the `decodeURIComponent` builtin (`none` models a URIError). -/
def jsDecodeURIComponent (s : String) : Option String :=
  (uriTokens s.data).bind (fun ts => (utf8Decode ts).map List.asString)

/-- Embedding of `decodeFacebookText` (jsonAdapter.js lines 6–15): the
falsy guard returns empty input unchanged, then
`decodeURIComponent(escape(text))` with the catch returning the input. -/
def decodeFacebookText (text : String) : String :=
  if text = "" then text
  else
    match jsDecodeURIComponent (jsEscape text) with
    | some s => s
    | none => text

/-- Application of `decodeFacebookText` to an optional (possibly absent)
field: `decodeFacebookText(undefined)` returns `undefined`, modelled as the
empty string, which is likewise falsy downstream. -/
def decodeFBField : Option String → String
  | none => ""
  | some s => decodeFacebookText s

/-! ### Sorting (model of `array.sort((a, b) => key(a) - key(b))`)

JS `Array.prototype.sort` with a numeric comparator is a stable sort by the
key; Mathlib's stable `insertionSort` models it. -/

/-- Comparator relation of `(a, b) => a.timestamp - b.timestamp`. -/
def msgLe (a b : Message) : Prop := a.timestamp ≤ b.timestamp

instance : DecidableRel msgLe := fun a b => Int.decLe a.timestamp b.timestamp

/-- Model of `messages.sort((a, b) => a.timestamp - b.timestamp)`. -/
def sortMessages (l : List Message) : List Message :=
  List.insertionSort msgLe l

/-- Comparator relation of the merger's conversation sort
`(a, b) => (a.dateRange.start?.getTime() || 0) - (b.dateRange.start?.getTime() || 0)`. -/
def convStartLe (a b : Conversation) : Prop :=
  (a.dateRangeStart.getD 0) ≤ (b.dateRangeStart.getD 0)

instance : DecidableRel convStartLe :=
  fun a b => Int.decLe (a.dateRangeStart.getD 0) (b.dateRangeStart.getD 0)

/-- Model of the merger's `[...conversations].sort(...)` by start date. -/
def sortConvsByStart (l : List Conversation) : List Conversation :=
  List.insertionSort convStartLe l

/-- Embedding of `generateId` (identical helper in jsonAdapter.js,
lineAdapter and the WhatsApp adapter):
`fileName.replace(/[^a-zA-Z0-9]/g, '-').toLowerCase()`. -/
def generateId (fileName : String) : String :=
  jsToLower ((fileName.data.map (fun c =>
    if ('a' ≤ c && c ≤ 'z') || ('A' ≤ c && c ≤ 'Z') || ('0' ≤ c && c ≤ '9')
    then c else '-')).asString)

/-! ### JSON adapter (jsonAdapter.js)

Records are the already-parsed JSON shapes.  Presence-only fields
(`photos`, `videos`, ..., `share`, `media`) matter solely through their JS
truthiness: an array field is truthy whenever present (even empty), and the
`media` test in the Instagram path additionally checks `length > 0`, so
array fields are kept as `Option (List Unit)` and the `share` object as
`Option Unit`. -/

/-- Raw Facebook message record (`{sender_name, timestamp_ms, content?,
photos?, videos?, audio_files?, files?, share?, reactions?}`). -/
structure FBMessage where
  sender_name : Option String
  timestamp_ms : Option Int
  content : Option String
  photos : Option (List Unit) := none
  videos : Option (List Unit) := none
  audio_files : Option (List Unit) := none
  files : Option (List Unit) := none
  share : Option Unit := none
  reactions : Option (List String) := none
deriving DecidableEq

/-- Raw Facebook participant record (`{name}`). -/
structure FBParticipant where
  name : String
deriving DecidableEq

/-- Raw Facebook export (`{participants, messages, title?}`). -/
structure FBData where
  participants : List FBParticipant
  messages : List FBMessage
  title : Option String := none
deriving DecidableEq

/-- Truthiness of an optional string field (empty string is falsy). -/
def strTruthy : Option String → Bool
  | none => false
  | some s => !(s = "")

/-- Truthiness of an optional integer field (0 is falsy). -/
def intTruthy : Option Int → Bool
  | none => false
  | some n => !(n = 0)

/-- Filter stage of `parseFacebookJSON` (jsonAdapter.js lines 112–115):
`msg.content || msg.photos || msg.videos || msg.audio_files || msg.files`.
The `share` field is absent from this disjunction. -/
def fbHasPayload (m : FBMessage) : Bool :=
  strTruthy m.content || m.photos.isSome || m.videos.isSome ||
  m.audio_files.isSome || m.files.isSome

/-- Map stage of `parseFacebookJSON` (lines 116–162): content/type/mediaType
selection chain followed by the normalized record. -/
def fbBuildMessage (m : FBMessage) : Message :=
  let ctm : String × String × Option String :=
    if strTruthy m.content then (decodeFBField m.content, "text", none)
    else if m.photos.isSome then ("[Photo]", "media", some "photo")
    else if m.videos.isSome then ("[Video]", "media", some "video")
    else if m.audio_files.isSome then ("[Audio]", "media", some "audio")
    else if m.files.isSome then ("[File]", "media", some "file")
    else if m.share.isSome then ("[Shared link]", "media", some "link")
    else ("[Media]", "media", some "unknown")
  { sender := decodeFBField m.sender_name
    content := ctm.1
    timestamp := m.timestamp_ms.getD 0
    date := m.timestamp_ms.getD 0
    type := ctm.2.1
    isUnsent := false
    reactions := m.reactions.getD []
    mediaType := ctm.2.2 }

/-- Final filter of both JSON paths (line 163):
`msg.timestamp && msg.sender && msg.content` (all three truthy).  A missing
`timestamp_ms` (`undefined`, hence `NaN` timestamp) and a zero timestamp are
both falsy and both mapped to 0 by the builder, so the single test
`timestamp ≠ 0` models the conjunct. -/
def msgKeptByFinalFilter (m : Message) : Bool :=
  !(m.timestamp = 0) && !(m.sender = "") && !(m.content = "")

/-- Embedding of `parseFacebookJSON` (jsonAdapter.js lines 104–179). -/
def parseFacebookJSON (data : FBData) (fileName : String) : Conversation :=
  let participants : List Participant :=
    data.participants.map (fun p =>
      { name := decodeFacebookText p.name
        platform := "facebook"
        rawIdentifier := p.name })
  let messages : List Message :=
    sortMessages (((data.messages.filter fbHasPayload).map fbBuildMessage).filter
      msgKeptByFinalFilter)
  let fallbackTitle := jsJoin ", " (participants.map (fun p => p.name))
  { source := "facebook"
    conversationId := generateId fileName
    title := if strTruthy (some (decodeFBField data.title)) = true
             then decodeFBField data.title else fallbackTitle
    participants := participants
    messages := messages
    dateRangeStart := (messages.head?).map (fun m => m.date)
    dateRangeEnd := (messages.getLast?).map (fun m => m.date)
    totalMessages := messages.length
    rawFileName := fileName }

/-- Raw Instagram message record (`{senderName, timestamp, text?, media?,
isUnsent?, reactions?}`). -/
structure IGMessage where
  senderName : Option String
  timestamp : Option Int
  text : Option String
  media : Option (List Unit) := none
  isUnsent : Option Bool := none
  reactions : Option (List String) := none
deriving DecidableEq

/-- Raw Instagram export (`{participants, messages, threadName?}`). -/
structure IGData where
  participants : List String
  messages : List IGMessage
  threadName : Option String := none
deriving DecidableEq

/-- Filter stage of `parseInstagramJSON` (jsonAdapter.js lines 52–55):
`!msg.isUnsent && (msg.text || msg.media?.length > 0)`. -/
def igKept (m : IGMessage) : Bool :=
  !(m.isUnsent.getD false) &&
  (strTruthy m.text || (match m.media with
                        | some l => decide (0 < l.length)
                        | none => false))

/-- Map stage of `parseInstagramJSON` (lines 56–82). -/
def igBuildMessage (m : IGMessage) : Message :=
  let ctm : String × String × Option String :=
    if strTruthy m.text then (m.text.getD "", "text", none)
    else if (match m.media with
             | some l => decide (0 < l.length)
             | none => false) then ("[Media]", "media", some "unknown")
    else ("", "text", none)
  { sender := m.senderName.getD ""
    content := ctm.1
    timestamp := m.timestamp.getD 0
    date := m.timestamp.getD 0
    type := ctm.2.1
    isUnsent := m.isUnsent.getD false
    reactions := m.reactions.getD []
    mediaType := ctm.2.2 }

/-- Embedding of `parseInstagramJSON` (jsonAdapter.js lines 44–99). -/
def parseInstagramJSON (data : IGData) (fileName : String) : Conversation :=
  let participants : List Participant :=
    data.participants.map (fun name =>
      { name := name, platform := "instagram", rawIdentifier := name })
  let messages : List Message :=
    sortMessages (((data.messages.filter igKept).map igBuildMessage).filter
      msgKeptByFinalFilter)
  { source := "instagram"
    conversationId := match data.threadName with
                      | some t => if t = "" then generateId fileName else t
                      | none => generateId fileName
    title := match data.threadName with
             | some t => if t = "" then jsJoin ", " (participants.map (fun p => p.name)) else t
             | none => jsJoin ", " (participants.map (fun p => p.name))
    participants := participants
    messages := messages
    dateRangeStart := (messages.head?).map (fun m => m.date)
    dateRangeEnd := (messages.getLast?).map (fun m => m.date)
    totalMessages := messages.length
    rawFileName := fileName }

/-! ### WhatsApp adapter (the WhatsApp section of src/adapters)

The two anchored regexes are embedded as character-list parsers.  Regex
backtracking collapses: every quantified piece is followed by a token its
own character class excludes (`\s+` by a non-space, `[^:]+?` by `:`,
`\d{1,2}` by `:`), so greedy/lazy scanning without backtracking computes the
same match.  `.` excludes line terminators, and lines produced by
`split('\n')` contain none (the claims' inputs are LF-separated, so no
stray carriage return occurs). -/

/-- Parser step: one expected literal character. -/
def expectChar (c : Char) : List Char → Option (List Char)
  | x :: xs => if x = c then some xs else none
  | [] => none

/-- Parser step: exactly `n` ASCII digits (regex `\d{n}`). -/
def takeNDigits : Nat → List Char → Option (List Char × List Char)
  | 0, l => some ([], l)
  | n + 1, c :: cs =>
    if isDig c then (takeNDigits n cs).map (fun p => (c :: p.1, p.2)) else none
  | _ + 1, [] => none

/-- Parser step: one or more whitespace characters (regex `\s+`). -/
def takeWs1 (l : List Char) : Option (List Char × List Char) :=
  let ws := l.takeWhile jsWhitespace
  if ws.isEmpty then none else some (ws, l.dropWhile jsWhitespace)

/-- Parser step for `\d{1,2}` immediately followed by `:` (the `:` is not
consumed); the two-digit reading is preferred exactly as the greedy
quantifier with backtracking concludes. -/
def takeHourDigits : List Char → Option (List Char × List Char)
  | a :: b :: rest =>
    if isDig a then
      if isDig b && rest.head? = some ':' then some ([a, b], rest)
      else if b = ':' then some ([a], b :: rest)
      else none
    else none
  | _ => none

/-- Parser step for the alternation of `a.m.` and `p.m.`. -/
def takeAmPm : List Char → Option (List Char × List Char)
  | 'a' :: '.' :: 'm' :: '.' :: rest => some (['a', '.', 'm', '.'], rest)
  | 'p' :: '.' :: 'm' :: '.' :: rest => some (['p', '.', 'm', '.'], rest)
  | _ => none

/-- Parser step for `([^:]+?):` — the shortest nonempty colon-free run, then
the colon (consumed). -/
def takeSender (l : List Char) : Option (List Char × List Char) :=
  let s := l.takeWhile (fun c => !(c = ':'))
  match l.dropWhile (fun c => !(c = ':')) with
  | ':' :: rest => if s.isEmpty then none else some (s, rest)
  | _ => none

/-- Parser for the shared date piece `(\d{4}-\d{2}-\d{2}),`; returns the
capture and the remainder after the comma. -/
def matchWADate (l : List Char) : Option (List Char × List Char) := do
  let (d1, l) ← takeNDigits 4 l
  let l ← expectChar '-' l
  let (d2, l) ← takeNDigits 2 l
  let l ← expectChar '-' l
  let (d3, l) ← takeNDigits 2 l
  let l ← expectChar ',' l
  pure (d1 ++ ['-'] ++ d2 ++ ['-'] ++ d3, l)

/-- Parser for the shared time capture `(\d{1,2}:\d{2}\s+(?:a\.m\.|p\.m\.))`. -/
def matchWATime (l : List Char) : Option (List Char × List Char) := do
  let (hh, l) ← takeHourDigits l
  let l ← expectChar ':' l
  let (mi, l) ← takeNDigits 2 l
  let (w2, l) ← takeWs1 l
  let (ap, l) ← takeAmPm l
  pure (hh ++ [':'] ++ mi ++ w2 ++ ap, l)

/-- Parser for the prefix both WhatsApp regexes share:
date `,` `\s+` time `\s+` `-` `\s+`; returns the two captures and the
remainder. -/
def matchWAHeader (l : List Char) : Option (String × String × List Char) := do
  let (dateCs, l) ← matchWADate l
  let (_, l) ← takeWs1 l
  let (timeCs, l) ← matchWATime l
  let (_, l) ← takeWs1 l
  let l ← expectChar '-' l
  let (_, l) ← takeWs1 l
  pure (dateCs.asString, timeCs.asString, l)

/-- Embedding of the WhatsApp message regex
(date, time, then the sender/text split at the first colon followed by
whitespace), returning the four capture groups. -/
def matchWhatsAppMessage (line : String) : Option (String × String × String × String) := do
  let (dateStr, timeStr, l) ← matchWAHeader line.data
  let (snd, l) ← takeSender l
  let (_, l) ← takeWs1 l
  pure (dateStr, timeStr, snd.asString, l.asString)

/-- Embedding of the WhatsApp system-message regex: same prefix, the whole
remainder is the third capture. -/
def matchWhatsAppSystem (line : String) : Option (String × String × String) := do
  let (dateStr, timeStr, l) ← matchWAHeader line.data
  pure (dateStr, timeStr, l.asString)

/-- Leftmost-shortest group of the file-attached pattern: the prefix before
the first whitespace run immediately followed by the literal
`(file attached)`.  `pre` accumulates the group scanned so far. -/
def fileAttachedName (pre : List Char) : List Char → Option String
  | [] => none
  | c :: cs =>
    if !pre.isEmpty && jsWhitespace c &&
       List.isPrefixOf "(file attached)".data ((c :: cs).dropWhile jsWhitespace) then
      some pre.asString
    else fileAttachedName (pre ++ [c]) cs

/-- Case-insensitive extension test, the model of matching
`fileName` against an end-anchored alternation of extensions. -/
def extMatch (name : String) (exts : List String) : Bool :=
  exts.any (fun e => jsEndsWith (jsToLower name) ("." ++ e))

/-- Embedding of `normalizeWhatsAppContent`, returning
(content, type, mediaType). -/
def normalizeWhatsAppContent (text : String) : String × String × Option String :=
  if jsIncludes text "(file attached)" then
    let fileName := match fileAttachedName [] text.data with
                    | some n => n
                    | none => "File"
    if extMatch fileName ["jpg", "jpeg", "png", "gif", "webp"] then
      ("[Photo]", "media", some "photo")
    else if extMatch fileName ["mp4", "mov", "avi", "mkv"] then
      ("[Video]", "media", some "video")
    else if extMatch fileName ["mp3", "wav", "ogg", "m4a", "opus"] then
      ("[Audio]", "media", some "audio")
    else if extMatch fileName ["pdf", "doc", "docx", "txt"] then
      ("[Document]", "media", some "document")
    else ("[File]", "media", some "file")
  else if text = "<Media omitted>" || text = "<media omitted>" then
    ("[Media]", "media", some "unknown")
  else if jsIncludes text "image omitted" then ("[Photo]", "media", some "photo")
  else if jsIncludes text "video omitted" then ("[Video]", "media", some "video")
  else if jsIncludes text "audio omitted" || jsIncludes text "voice message" then
    ("[Audio]", "media", some "audio")
  else if jsIncludes text "sticker omitted" then ("[Sticker]", "sticker", some "sticker")
  else if jsIncludes text "GIF omitted" then ("[GIF]", "media", some "gif")
  else if jsIncludes text "Contact card omitted" then ("[Contact]", "media", some "contact")
  else if jsIncludes text "Location:" || jsIncludes text "location:" then
    ("[Location]", "media", some "location")
  else (text, "text", none)

/-- Attempted match of the inner time regex of `parseWhatsAppDateTime` at
the current position; the boolean is the p.m. flag. -/
def timeInnerAt (l : List Char) : Option (Nat × Nat × Bool) := do
  let (hh, l) ← takeHourDigits l
  let l ← expectChar ':' l
  let (mi, l) ← takeNDigits 2 l
  let (_, l) ← takeWs1 l
  match takeAmPm l with
  | some (ap, _) => pure (digitsToNat hh, digitsToNat mi, ap.head? = some 'p')
  | none => none

/-- Unanchored leftmost search used by the time match in
`parseWhatsAppDateTime`. -/
def timeInnerSearch : List Char → Option (Nat × Nat × Bool)
  | [] => none
  | c :: cs =>
    match timeInnerAt (c :: cs) with
    | some r => some r
    | none => timeInnerSearch cs

/-- Embedding of `parseWhatsAppDateTime` (throws — `.error` — exactly when
the inner time regex fails; the date split is only reached with a
regex-validated `\d{4}-\d{2}-\d{2}` capture, for which `Number` is digit
parsing). -/
def parseWhatsAppDateTime (dateStr timeStr : String) : Except String Int :=
  let parts := splitOnChar '-' dateStr.data
  let y : Int := Int.ofNat (digitsToNat (parts.getD 0 []))
  let mo : Int := Int.ofNat (digitsToNat (parts.getD 1 []))
  let d : Int := Int.ofNat (digitsToNat (parts.getD 2 []))
  match timeInnerSearch timeStr.data with
  | none => Except.error ("Invalid time format: " ++ timeStr)
  | some (h, mi, pm) =>
    let hours : Nat :=
      if pm && !(h = 12) then h + 12
      else if !pm && h = 12 then 0
      else h
    Except.ok (civilMs y mo d (Int.ofNat hours) (Int.ofNat mi))

/-- Loop state of `parseWhatsAppFormat`: the accumulated messages, the
participant set (insertion-ordered) and the message under construction. -/
structure WAState where
  messages : List Message
  participantSet : List String
  currentMessage : Option Message
deriving DecidableEq

/-- Finalisation of the in-progress message (`messages.push(currentMessage)`
when one exists). -/
def waFlush (st : WAState) : List Message :=
  match st.currentMessage with
  | some m => st.messages ++ [m]
  | none => st.messages

/-- One iteration of the `parseWhatsAppFormat` line loop. -/
def waStep (st : WAState) (line : String) : Except String WAState :=
  match matchWhatsAppMessage line with
  | some (dateStr, timeStr, sender, text) =>
    (parseWhatsAppDateTime dateStr timeStr).map (fun ts =>
      let ctm := normalizeWhatsAppContent text
      { messages := waFlush st
        participantSet := setAdd st.participantSet sender
        currentMessage := some
          { sender := sender, content := ctm.1, timestamp := ts, date := ts,
            type := ctm.2.1, isUnsent := false, reactions := [],
            mediaType := ctm.2.2 } })
  | none =>
    match matchWhatsAppSystem line with
    | some _ =>
      Except.ok { messages := waFlush st, participantSet := st.participantSet,
                  currentMessage := none }
    | none =>
      match st.currentMessage with
      | some m =>
        if !(jsTrim line = "") then
          let m2 : Message := { m with content := m.content ++ "\n" ++ line }
          Except.ok { st with currentMessage := some m2 }
        else Except.ok st
      | none => Except.ok st

/-- Embedding of `parseWhatsAppFormat` (the WhatsApp section of
src/adapters, lines 130–227). -/
def parseWhatsAppFormat (content fileName : String) : Except String Conversation :=
  ((splitLines content).foldlM waStep ⟨[], [], none⟩).map (fun final =>
    let participants := final.participantSet
    let title :=
      if participants.length = 2 then
        participants.getD 0 "" ++ " & " ++ participants.getD 1 ""
      else if participants.length = 1 then participants.getD 0 ""
      else "WhatsApp Chat (" ++ toString participants.length ++ " participants)"
    let sorted := sortMessages (waFlush final)
    { source := "whatsapp"
      conversationId := generateId fileName
      title := title
      participants := participants.map (fun name =>
        { name := name, platform := "whatsapp", rawIdentifier := name })
      messages := sorted
      dateRangeStart := (sorted.head?).map (fun m => m.date)
      dateRangeEnd := (sorted.getLast?).map (fun m => m.date)
      totalMessages := sorted.length
      rawFileName := fileName })

/-! ### Line adapter (the Line section of src/adapters) -/

/-- Model of removing a leading byte-order mark,
`lines[0].replace(/^﻿/, '')`. -/
def stripBOM (s : String) : String :=
  match s.data with
  | c :: cs => if c = '﻿' then cs.asString else s
  | [] => s

/-- Embedding of the Line date-header regex
`^[A-Z][a-z]{2},?\s+(\d{2})\/(\d{2})\/(\d{4})$`, returning the
(day, month, year) captures. -/
def matchLineDate (l : List Char) : Option (List Char × List Char × List Char) :=
  match l with
  | c1 :: c2 :: c3 :: rest =>
    if ('A' ≤ c1 && c1 ≤ 'Z') && ('a' ≤ c2 && c2 ≤ 'z') && ('a' ≤ c3 && c3 ≤ 'z') then
      let rest2 := match rest with
                   | ',' :: r => r
                   | r => r
      (do
        let (_, r) ← takeWs1 rest2
        let (dd, r) ← takeNDigits 2 r
        let r ← expectChar '/' r
        let (mm2, r) ← takeNDigits 2 r
        let r ← expectChar '/' r
        let (yy, r) ← takeNDigits 4 r
        if r.isEmpty then some (dd, mm2, yy) else none)
    else none
  | _ => none

/-- Embedding of the Line message regex `^(\d{2}:\d{2})\t([^\t]+)\t(.+)$`,
returning the (time, sender, text) captures. -/
def matchLineMessage (l : List Char) : Option (String × String × String) := do
  let (h2, r) ← takeNDigits 2 l
  let r ← expectChar ':' r
  let (m2, r) ← takeNDigits 2 r
  let r ← expectChar '\t' r
  let sender := r.takeWhile (fun c => !(c = '\t'))
  match r.dropWhile (fun c => !(c = '\t')) with
  | '\t' :: text =>
    if sender.isEmpty || text.isEmpty then none
    else some ((h2 ++ [':'] ++ m2).asString, sender.asString, text.asString)
  | _ => none

/-- Embedding of `normalizeLineContent`, returning
(content, type, mediaType). -/
def normalizeLineContent (text : String) : String × String × Option String :=
  if text = "[Sticker]" then ("[Sticker]", "sticker", some "sticker")
  else if text = "[Photo]" then ("[Photo]", "media", some "photo")
  else if text = "[Video]" then ("[Video]", "media", some "video")
  else if text = "[Voice message]" || text = "[Audio]" then
    ("[Audio]", "media", some "audio")
  else if text = "[File]" then ("[File]", "media", some "file")
  else (text, "text", none)

/-- Loop state of `parseLineFormat`: the current date header (as the civil
year/month/day of `new Date(year, month - 1, day)`) and the accumulated
messages and participant set. -/
structure LineState where
  currentDate : Option (Int × Int × Int)
  messages : List Message
  participantSet : List String
deriving DecidableEq

/-- One iteration of the `parseLineFormat` line loop (lines 341–381 of the
Line section): blank lines are skipped, a date header updates the state, a
message line is recognised only while a date is set. -/
def lineStep (st : LineState) (rawLine : String) : LineState :=
  let line := jsTrim rawLine
  if line = "" then st
  else
    match matchLineDate line.data with
    | some (dd, mm2, yy) =>
      let newDate := (Int.ofNat (digitsToNat yy), Int.ofNat (digitsToNat mm2),
                      Int.ofNat (digitsToNat dd))
      { st with currentDate := some newDate }
    | none =>
      match matchLineMessage line.data, st.currentDate with
      | some (time, sender, text), some (y, mo, d) =>
        let parts := splitOnChar ':' time.data
        let hh := Int.ofNat (digitsToNat (parts.getD 0 []))
        let mi := Int.ofNat (digitsToNat (parts.getD 1 []))
        let ts := civilMs y mo d hh mi
        let ctm := normalizeLineContent text
        { st with
          participantSet := setAdd st.participantSet sender
          messages := st.messages ++
            [{ sender := sender, content := ctm.1, timestamp := ts, date := ts,
               type := ctm.2.1, isUnsent := false, reactions := [],
               mediaType := ctm.2.2 }] }
      | _, _ => st

/-- Embedding of `parseLineFormat` (the Line section of src/adapters,
lines 329–402).  The function never throws. -/
def parseLineFormat (content fileName : String) : Conversation :=
  let lines := splitLines content
  let titleLine := jsTrim (stripBOM (lines.getD 0 ""))
  let title0 := jsReplaceFirst titleLine "Chat history with " ""
  let title := if title0 = "" then "Line Conversation" else title0
  let final := (lines.drop 3).foldl lineStep ⟨none, [], []⟩
  let sorted := sortMessages final.messages
  { source := "line"
    conversationId := generateId fileName
    title := title
    participants := final.participantSet.map (fun name =>
      { name := name, platform := "line", rawIdentifier := name })
    messages := sorted
    dateRangeStart := (sorted.head?).map (fun m => m.date)
    dateRangeEnd := (sorted.getLast?).map (fun m => m.date)
    totalMessages := sorted.length
    rawFileName := fileName }

/-! ### Adapter router (src/adapters/index.js) -/

/-- Model of an uploaded file: its name and decoded text content. -/
structure JSFile where
  name : String
  content : String
deriving DecidableEq

/-- Embedding of `detectFormat` (index.js lines 12–44). -/
def detectFormat (file : JSFile) (content : String) : String :=
  let fileName := jsToLower file.name
  if jsEndsWith fileName ".json" then "json"
  else if jsEndsWith fileName ".txt" then
    let firstLine := (splitLines content).getD 0 ""
    if jsIncludes firstLine "Chat history with" ||
       jsIncludes firstLine "ï»¿Chat history with" then "line"
    else "unknown-txt"
  else
    let trimmedContent := jsTrim content
    if jsStartsWith trimmedContent "\x7b" || jsStartsWith trimmedContent "[" then
      "json"
    else if jsIncludes trimmedContent "Chat history with" then "line"
    else "unknown"

/-- Error entry of the batch result. -/
structure ParseError where
  fileName : String
  error : String
deriving DecidableEq

/-- Batch parse result `\x7b conversations, errors \x7d`. -/
structure BatchResult where
  conversations : List Conversation
  errors : List ParseError
deriving DecidableEq

/-- Embedding of `parseConversation` (index.js lines 50–77), parameterised
by the function used for the `json` branch (`parseJSONFormat` consumes raw
JSON text through the host `JSON.parse` builtin, which is not repository
code; no claim exercises the json branch end-to-end).  The catch block
wraps any adapter error into the `Failed to parse ...` message. -/
def parseConversationWith (jsonFn : String → String → Except String Conversation)
    (file : JSFile) : Except String Conversation :=
  let dispatched : Except String Conversation :=
    match detectFormat file file.content with
    | "json" => jsonFn file.content file.name
    | "line" => Except.ok (parseLineFormat file.content file.name)
    | "unknown-txt" =>
      Except.error "Text file format not recognized. Currently supported: Line Messenger"
    | "unknown" =>
      Except.error "File format not recognized. Supported: JSON (Facebook/Instagram), TXT (Line Messenger)"
    | f => Except.error ("Unsupported format: " ++ f)
  match dispatched with
  | Except.ok c => Except.ok c
  | Except.error e => Except.error ("Failed to parse " ++ file.name ++ ": " ++ e)

/-- Embedding of `parseConversations` (index.js lines 83–100): the loop
catches each per-file failure as an error entry and continues with the
remaining files. -/
def parseConversations (jsonFn : String → String → Except String Conversation) :
    List JSFile → BatchResult
  | [] => { conversations := [], errors := [] }
  | f :: fs =>
    let rest := parseConversations jsonFn fs
    match parseConversationWith jsonFn f with
    | Except.ok conv => { conversations := conv :: rest.conversations, errors := rest.errors }
    | Except.error e =>
      { conversations := rest.conversations,
        errors := { fileName := f.name, error := e } :: rest.errors }

/-! ### Conversation merger (src/utils/conversationMerger.js) -/

/-- Mapped person record of an identity mapping
(name, platform, conversationId, conversationTitle). -/
structure MappedPerson where
  name : String
  platform : String
  conversationId : String
  conversationTitle : String
deriving DecidableEq

/-- User-declared identity mapping; a missing side is `none` (the source
ignores such a mapping entirely). -/
structure IdentityMapping where
  person1 : Option MappedPerson
  person2 : Option MappedPerson
deriving DecidableEq

/-- Canonical identity derived from one mapping. -/
structure Identity where
  canonicalId : String
  canonicalName : String
  alternateNames : List String
  platforms : List String
deriving DecidableEq

/-- Composite lookup key `name + "|||" + conversationId` used by the
identity map. -/
def personKey (name conversationId : String) : String :=
  name ++ "|||" ++ conversationId

/-- Identity record built for the complete mapping at `forEach` index
`idx`: both persons receive the same record, named after person1. -/
def identityOf (idx : Nat) (p1 p2 : MappedPerson) : Identity :=
  { canonicalId := "merged-" ++ toString idx
    canonicalName := p1.name
    alternateNames := [p1.name, p2.name]
    platforms := [p1.platform, p2.platform] }

/-- Worker of `createIdentityMap`: the `forEach((mapping, idx) => ...)`
loop; an incomplete mapping is skipped but still advances the index. -/
def createIdentityMapGo : Nat → List IdentityMapping → JSMap Identity → JSMap Identity
  | _, [], acc => acc
  | idx, m :: rest, acc =>
    match m.person1, m.person2 with
    | some p1, some p2 =>
      let ident := identityOf idx p1 p2
      createIdentityMapGo (idx + 1) rest
        (mapSet (mapSet acc (personKey p1.name p1.conversationId) ident)
                (personKey p2.name p2.conversationId) ident)
    | _, _ => createIdentityMapGo (idx + 1) rest acc

/-- Embedding of `createIdentityMap` (conversationMerger.js lines 39–67). -/
def createIdentityMap (mappings : List IdentityMapping) : JSMap Identity :=
  createIdentityMapGo 0 mappings []

/-- Group key of one conversation (lines 76–90): the `canonicalId` of the
first participant found in the identity map, else the conversation's own
id. -/
def conversationGroupKey (identityMap : JSMap Identity) (conv : Conversation) : String :=
  let keys := conv.participants.map (fun p => personKey p.name conv.conversationId)
  match keys.find? (fun k => (mapGet identityMap k).isSome) with
  | some k =>
    match mapGet identityMap k with
    | some ident => ident.canonicalId
    | none => conv.conversationId
  | none => conv.conversationId

/-- Entry update of the `groups` object: push onto an existing key or
create a fresh one (insertion-ordered dictionary model of a JS object). -/
def addToGroups (gs : List (String × List Conversation)) (k : String)
    (c : Conversation) : List (String × List Conversation) :=
  if gs.any (fun p => p.1 = k) then
    gs.map (fun p => if p.1 = k then (p.1, p.2 ++ [c]) else p)
  else gs ++ [(k, [c])]

/-- Embedding of `groupConversationsByIdentity` (lines 72–99). -/
def groupConversationsByIdentity (conversations : List Conversation)
    (identityMap : JSMap Identity) : List (String × List Conversation) :=
  conversations.foldl
    (fun gs conv => addToGroups gs (conversationGroupKey identityMap conv) conv) []

/-- Sender rewrite of one concatenated message (lines 120–132): the owning
conversation is the first group member whose message list contains the
message (the JS reference-identity search, rendered structurally), and a
mapped `(sender, owning id)` is rewritten to the canonical name with the
original preserved. -/
def rewriteSender (sortedConvs : List Conversation) (identityMap : JSMap Identity)
    (msg : Message) : Message :=
  match sortedConvs.find? (fun c => c.messages.contains msg) with
  | some conv =>
    match mapGet identityMap (personKey msg.sender conv.conversationId) with
    | some ident =>
      { msg with originalSender := some msg.sender, sender := ident.canonicalName }
    | none => msg
  | none => msg

/-- Inner step of `getCanonicalParticipants` (lines 169–184): one source
participant of one member conversation; the entry is inserted only when the
canonical name is not yet a key (`if (!participantMap.has(canonicalName))`),
so a later participant folding to an existing canonical name contributes
nothing. -/
def canonicalEntryStep (identityMap : JSMap Identity) (conv : Conversation)
    (pm : JSMap Participant) (p : Participant) : JSMap Participant :=
  let identity := mapGet identityMap (personKey p.name conv.conversationId)
  let canonicalName := match identity with
                       | some i => i.canonicalName
                       | none => p.name
  if pm.any (fun q => q.1 = canonicalName) then pm
  else
    let entry : Participant :=
      { name := canonicalName
        platform := match identity with
                    | some _ => "multiple"
                    | none => p.platform
        rawIdentifier := p.rawIdentifier
        alternateNames := match identity with
                          | some i => i.alternateNames
                          | none => [p.name]
        platforms := match identity with
                     | some i => i.platforms
                     | none => [p.platform] }
    pm ++ [(canonicalName, entry)]

/-- Embedding of `getCanonicalParticipants` (lines 165–188): a dictionary
keyed by canonical name, inserting only when the key is absent. -/
def getCanonicalParticipants (conversations : List Conversation)
    (identityMap : JSMap Identity) : List Participant :=
  (conversations.foldl (fun pm conv =>
    conv.participants.foldl (canonicalEntryStep identityMap conv) pm)
    ([] : JSMap Participant)).map (fun q => q.2)

/-- Embedding of `createMergedTitle` (lines 193–197). -/
def createMergedTitle (participants : List Participant) (sources : List String) : String :=
  jsJoin " & " (participants.map (fun p => p.name)) ++ " (" ++
    jsJoin " + " sources ++ ")"

/-- Embedding of `mergeConversationGroup` (lines 104–160). -/
def mergeConversationGroup (conversations : List Conversation)
    (identityMap : JSMap Identity) : Conversation :=
  let sortedConvs := sortConvsByStart conversations
  let concatenated := sortedConvs.foldl (fun acc c => acc ++ c.messages) []
  let sorted := sortMessages concatenated
  let allMessages := sorted.map (rewriteSender sortedConvs identityMap)
  let canonicalParticipants := getCanonicalParticipants sortedConvs identityMap
  let uniqueSources := jsSetOfList (sortedConvs.map (fun c => c.source))
  { source := match uniqueSources with
              | [s] => s
              | _ => "merged"
    conversationId := "merged-" ++ jsJoin "-" (sortedConvs.map (fun c => c.conversationId))
    title := createMergedTitle canonicalParticipants uniqueSources
    participants := canonicalParticipants
    messages := allMessages
    dateRangeStart := (allMessages.head?).map (fun m => m.date)
    dateRangeEnd := (allMessages.getLast?).map (fun m => m.date)
    totalMessages := allMessages.length
    isMerged := true
    sourceConversations := sortedConvs.map (fun c =>
      { title := c.title, source := c.source, messageCount := c.messages.length,
        dateRangeStart := c.dateRangeStart, dateRangeEnd := c.dateRangeEnd }) }

/-- Numeric value of an array-index property key (evaluated only on
all-digit keys). -/
def arrayIndexVal (s : String) : Nat := digitsToNat s.data

/-- Test for an ECMA-262 array-index property key: the canonical decimal
numeral (nonempty, no leading zero except the numeral 0 itself) of an
integer below 2^32 - 1. -/
def isArrayIndexKey (s : String) : Bool :=
  match s.data with
  | [] => false
  | [c] => isDig c
  | c :: cs => ('1' ≤ c && c ≤ '9') && cs.all isDig &&
      decide (digitsToNat (c :: cs) < 4294967295)

/-- Enumeration order of a plain JS object's own properties (ECMA-262
ordinary own property key order): array-index keys first in ascending
numeric order, then the remaining string keys in insertion order.
`Object.values(obj)` reads the values in this order. -/
def jsObjectEntriesOrder {α : Type} (gs : List (String × α)) : List (String × α) :=
  List.insertionSort (fun a b => arrayIndexVal a.1 ≤ arrayIndexVal b.1)
    (gs.filter (fun p => isArrayIndexKey p.1)) ++
  gs.filter (fun p => !isArrayIndexKey p.1)

/-- Embedding of `mergeConversations` (conversationMerger.js lines 9–33).
An absent (`null`) mapping list and an empty one take the same early
return; the model's single `List` argument covers both.  `Object.values`
of the `groups` object enumerates in `jsObjectEntriesOrder`. -/
def mergeConversations (conversations : List Conversation)
    (mappings : List IdentityMapping) : List Conversation :=
  if mappings.isEmpty then conversations
  else
    let identityMap := createIdentityMap mappings
    let grouped := groupConversationsByIdentity conversations identityMap
    (jsObjectEntriesOrder grouped).map (fun g =>
      match g.2 with
      | [c] => c
      | group => mergeConversationGroup group identityMap)

/-! ### Order instances for the sort comparators -/

instance : IsTotal Message msgLe :=
  ⟨fun a b => Int.le_total a.timestamp b.timestamp⟩

instance : IsTrans Message msgLe :=
  ⟨fun _ _ _ hab hbc => le_trans hab hbc⟩

instance : IsTotal Conversation convStartLe :=
  ⟨fun a b => Int.le_total (a.dateRangeStart.getD 0) (b.dateRangeStart.getD 0)⟩

instance : IsTrans Conversation convStartLe :=
  ⟨fun _ _ _ hab hbc => le_trans hab hbc⟩

/-- Sortedness predicate of a message list: timestamps non-decreasing. -/
def msgsSorted (l : List Message) : Prop := l.Sorted msgLe

instance (l : List Message) : Decidable (msgsSorted l) :=
  inferInstanceAs (Decidable (l.Pairwise msgLe))

/-! ### Proof infrastructure: decimal digits of `Nat.toString`

`createIdentityMap` keys canonical ids as the template string
`merged-` followed by the decimal numeral of the mapping index, so
distinctness of canonical ids reduces to injectivity of `Nat.toString`,
proved here against the core `Nat.toDigitsCore` numeral printer. -/

/-- Specification of the decimal digit list of a natural number. -/
def decimalDigits (n : Nat) : List Char :=
  if _h : n < 10 then [Nat.digitChar n]
  else decimalDigits (n / 10) ++ [Nat.digitChar (n % 10)]
termination_by n
decreasing_by exact Nat.div_lt_self (by omega) (by omega)

/-- Numeric value of a decimal digit list. -/
def decimalVal (l : List Char) : Nat :=
  l.foldl (fun a c => 10 * a + (c.toNat - 48)) 0

/-! ### Concrete fixtures used by closed theorems and witnesses -/

/-- Fixture: a plain text message record. -/
def mkMsg (s c : String) (t : Int) : Message :=
  { sender := s, content := c, timestamp := t, date := t, type := "text",
    isUnsent := false, reactions := [], mediaType := none }

/-- Fixture: an adapter-shaped conversation. -/
def mkConv (id src : String) (ps : List String) (ms : List Message) : Conversation :=
  { source := src, conversationId := id, title := id,
    participants := ps.map (fun n => { name := n, platform := src, rawIdentifier := n }),
    messages := ms,
    dateRangeStart := (ms.head?).map (fun m => m.date),
    dateRangeEnd := (ms.getLast?).map (fun m => m.date),
    totalMessages := ms.length }

/-- Fixture: a mapped person. -/
def mkPerson (n pf cid : String) : MappedPerson :=
  { name := n, platform := pf, conversationId := cid, conversationTitle := cid }

/-- Fixture for the json branch of the router in closed statements about
text files, whose dispatch never invokes it. -/
def noJson : String → String → Except String Conversation :=
  fun _ _ => Except.error "json branch not exercised by this input"

/-- Fixture (C1): a WhatsApp-format text file. -/
def waFile : JSFile :=
  { name := "chat.txt", content := "2021-06-21, 4:23 a.m. - Tom: Hello" }

/-- Fixture (C6): conversation containing participant A. -/
def convWithA : Conversation := mkConv "ca" "facebook" ["A", "X"] [mkMsg "A" "m1" 1]

/-- Fixture (C6): conversation containing participant B. -/
def convWithB : Conversation := mkConv "cb" "instagram" ["B", "X"] [mkMsg "B" "m2" 2]

/-- Fixture (C6): conversation containing participant C. -/
def convWithC : Conversation := mkConv "cc" "line" ["C", "X"] [mkMsg "C" "m3" 3]

/-- Fixture (C6): mapping declaring A and B the same person. -/
def mapAB : IdentityMapping :=
  { person1 := some (mkPerson "A" "facebook" "ca"),
    person2 := some (mkPerson "B" "instagram" "cb") }

/-- Fixture (C6): mapping declaring B and C the same person. -/
def mapBC : IdentityMapping :=
  { person1 := some (mkPerson "B" "instagram" "cb"),
    person2 := some (mkPerson "C" "line" "cc") }

/-- Fixture (C9): Facebook-side conversation of the merge group. -/
def convFB9 : Conversation := mkConv "c1" "facebook" ["Alice", "Bob"] [mkMsg "Alice" "hi" 1]

/-- Fixture (C9): Instagram-side conversation of the merge group, with the
unmapped participant Bob recurring under the same name. -/
def convIG9 : Conversation := mkConv "c2" "instagram" ["alice_ig", "Bob"] [mkMsg "Bob" "yo" 2]

/-- Fixture (C9): mapping folding the two Alice records together. -/
def mapAlice : IdentityMapping :=
  { person1 := some (mkPerson "Alice" "facebook" "c1"),
    person2 := some (mkPerson "alice_ig" "instagram" "c2") }

/-- Fixture (C9): the identity map of `mapAlice`. -/
def idMapAlice : JSMap Identity := createIdentityMap [mapAlice]

/-- Fixture (C3/C8): Facebook record carrying only a `share` payload. -/
def fbShareOnly : FBMessage :=
  { sender_name := some "A", timestamp_ms := some 5, content := none, share := some () }

/-- Fixture (C3): Facebook record with no payload field at all. -/
def fbNoPayload : FBMessage :=
  { sender_name := some "A", timestamp_ms := some 6, content := none }

/-- Fixture (C3/C8): ordinary Facebook text record. -/
def fbTextMsg : FBMessage :=
  { sender_name := some "A", timestamp_ms := some 7, content := some "hey" }

/-- Fixture (C3): Facebook export containing the three records above. -/
def fbProbeData : FBData :=
  { participants := [⟨"A"⟩, ⟨"B"⟩], messages := [fbShareOnly, fbNoPayload, fbTextMsg] }

/-- Fixture (C8): Facebook export whose text fields carry the mis-encoded
bytes of café (U+00C3 U+00A9 standing for the UTF-8 pair C3 A9). -/
def fbCafeData : FBData :=
  { participants := [⟨"cafÃ©"⟩],
    messages := [{ sender_name := some "cafÃ©", timestamp_ms := some 9,
                   content := some "cafÃ©" }],
    title := some "cafÃ©" }

/-- Fixture (C4): a Line text file with a valid header and no message
lines. -/
def lineEmptyFile : JSFile :=
  { name := "chat.txt", content := "Chat history with Tom\nSaved on: 2024\n\n" }

/-- Fixture (C4): the conversation the router produces for
`lineEmptyFile`. -/
def lineEmptyConv : Conversation :=
  { source := "line", conversationId := "chat-txt", title := "Tom",
    participants := [], messages := [], dateRangeStart := none,
    dateRangeEnd := none, totalMessages := 0, rawFileName := "chat.txt" }

/-- Fixture (C10): WhatsApp state holding one in-progress message. -/
def waMsgInProgress : Message := mkMsg "Tom" "Hello" 1624249380000

/-- Fixture (C10): the loop state before the continuation line. -/
def waStateInProgress : WAState :=
  { messages := [], participantSet := ["Tom"], currentMessage := some waMsgInProgress }

/-- Fixture (C5): a Line export with out-of-order message times, exercising
the sort. -/
def lineTwoMsgFile : String :=
  "Chat history with Tom\nSaved on: 2024\n\nFri, 16/02/2024\n23:37\tTom\tlater\n08:05\tAna\tearlier"

/-- Fixture (C6): the identity record mapping A↔B registers (index 0). -/
def identAB : Identity :=
  { canonicalId := "merged-0", canonicalName := "A",
    alternateNames := ["A", "B"], platforms := ["facebook", "instagram"] }

/-- Fixture (C6): the identity record mapping B↔C registers (index 1). -/
def identBC : Identity :=
  { canonicalId := "merged-1", canonicalName := "B",
    alternateNames := ["B", "C"], platforms := ["instagram", "line"] }

/-! ## Lemmas -/

theorem digitChar_sub48 {d : Nat} (h : d < 10) : (Nat.digitChar d).toNat - 48 = d := by
  interval_cases d <;> rfl

theorem decimalVal_append (l : List Char) (c : Char) :
    decimalVal (l ++ [c]) = 10 * decimalVal l + (c.toNat - 48) := by
  simp [decimalVal, List.foldl_append]

theorem decimalVal_decimalDigits (n : Nat) : decimalVal (decimalDigits n) = n := by
  induction n using Nat.strong_induction_on with
  | _ n ih =>
    rw [decimalDigits]
    split
    · next h =>
      simpa [decimalVal] using digitChar_sub48 h
    · next h =>
      rw [decimalVal_append,
        ih (n / 10) (Nat.div_lt_self (by omega) (by omega)),
        digitChar_sub48 (Nat.mod_lt n (by omega))]
      omega

theorem toDigitsCore_succ (b f n : Nat) (ds : List Char) :
    Nat.toDigitsCore b (f + 1) n ds =
      (if n / b = 0 then Nat.digitChar (n % b) :: ds
       else Nat.toDigitsCore b f (n / b) (Nat.digitChar (n % b) :: ds)) := by
  simp only [Nat.toDigitsCore]

theorem toDigitsCore_eq_decimalDigits :
    ∀ (f n : Nat) (ds : List Char), n < 10 ^ (f + 1) →
      Nat.toDigitsCore 10 (f + 1) n ds = decimalDigits n ++ ds := by
  intro f
  induction f with
  | zero =>
    intro n ds h
    have h10 : n < 10 := by simpa using h
    have hdiv : n / 10 = 0 := Nat.div_eq_of_lt h10
    rw [toDigitsCore_succ, if_pos hdiv, decimalDigits, dif_pos h10,
      Nat.mod_eq_of_lt h10]
    rfl
  | succ f ihf =>
    intro n ds h
    by_cases h10 : n < 10
    · have hdiv : n / 10 = 0 := Nat.div_eq_of_lt h10
      rw [toDigitsCore_succ, if_pos hdiv, decimalDigits, dif_pos h10,
        Nat.mod_eq_of_lt h10]
      rfl
    · have hge : 10 ≤ n := Nat.le_of_not_lt h10
      have hdiv : ¬ n / 10 = 0 := by
        have : 1 ≤ n / 10 := (Nat.le_div_iff_mul_le (by omega)).mpr (by omega)
        omega
      have hlt : n / 10 < 10 ^ (f + 1) := by
        rw [Nat.div_lt_iff_lt_mul (by omega)]
        calc n < 10 ^ (f + 1 + 1) := h
        _ = 10 ^ (f + 1) * 10 := by ring
      rw [toDigitsCore_succ, if_neg hdiv,
        ihf (n / 10) (Nat.digitChar (n % 10) :: ds) hlt]
      conv_rhs => rw [decimalDigits, dif_neg h10]
      simp

theorem toDigits_eq_decimalDigits (n : Nat) : Nat.toDigits 10 n = decimalDigits n := by
  have hlt : n < 10 ^ (n + 1) := by
    calc n < 2 ^ n := Nat.lt_two_pow n
    _ ≤ 10 ^ n := Nat.pow_le_pow_left (by omega) n
    _ ≤ 10 ^ (n + 1) := Nat.pow_le_pow_right (by omega) (Nat.le_succ n)
  have h := toDigitsCore_eq_decimalDigits n n [] hlt
  simpa [Nat.toDigits] using h

theorem asString_inj {a b : List Char} (h : a.asString = b.asString) : a = b := by
  simpa [List.asString, String.ext_iff] using h

theorem natToString_inj {m n : Nat} (h : toString m = toString n) : m = n := by
  have h1 : (Nat.toDigits 10 m).asString = (Nat.toDigits 10 n).asString := h
  have h2 := asString_inj h1
  rw [toDigits_eq_decimalDigits, toDigits_eq_decimalDigits] at h2
  calc m = decimalVal (decimalDigits m) := (decimalVal_decimalDigits m).symm
  _ = decimalVal (decimalDigits n) := by rw [h2]
  _ = n := decimalVal_decimalDigits n

theorem mergedId_inj {i j : Nat}
    (h : "merged-" ++ toString i = "merged-" ++ toString j) : i = j := by
  apply natToString_inj
  have hd : ("merged-" ++ toString i).data = ("merged-" ++ toString j).data := by rw [h]
  rw [String.data_append, String.data_append] at hd
  exact String.ext_iff.mpr (List.append_cancel_left hd)

theorem mapGet_nil {α : Type} (k : String) : mapGet ([] : JSMap α) k = none := rfl

theorem mapGet_cons {α : Type} (a : String × α) (m : JSMap α) (k : String) :
    mapGet (a :: m) k = if a.1 = k then some a.2 else mapGet m k := by
  by_cases h : a.1 = k <;> simp [mapGet, List.find?, h]

theorem mapGet_mapUpdate {α : Type} (m : JSMap α) (k : String) (v : α) (k2 : String) :
    mapGet (m.map (fun p => if p.1 = k then (k, v) else p)) k2 =
      if k2 = k then (mapGet m k).map (fun _ => v) else mapGet m k2 := by
  induction m with
  | nil => by_cases h : k2 = k <;> simp [mapGet, h]
  | cons a m ih =>
    by_cases hak : a.1 = k
    · by_cases h : k2 = k
      · subst h
        simp [mapGet_cons, hak, List.map_cons, if_pos hak]
      · rw [if_neg h, List.map_cons, if_pos hak, mapGet_cons, mapGet_cons]
        rw [if_neg (show ¬ ((k, v) : String × α).1 = k2 from fun hh => h hh.symm)]
        rw [if_neg (show ¬ a.1 = k2 from fun hh => h (hak.symm.trans hh).symm)]
        simpa [h] using ih
    · by_cases h : k2 = k
      · subst h
        simp only [List.map_cons, if_neg hak, mapGet_cons, if_neg hak]
        simpa using ih
      · simp only [List.map_cons, if_neg hak, mapGet_cons]
        by_cases ha2 : a.1 = k2
        · simp [ha2, h]
        · simp only [if_neg ha2]
          simpa [h] using ih

theorem mapGet_isSome_of_any {α : Type} (m : JSMap α) (k : String)
    (h : m.any (fun p => p.1 = k) = true) : (mapGet m k).isSome := by
  induction m with
  | nil => simp at h
  | cons a m ih =>
    rw [mapGet_cons]
    by_cases hak : a.1 = k
    · simp [hak]
    · simp only [if_neg hak]
      apply ih
      simpa [List.any_cons, hak] using h

theorem mapGet_none_of_not_any {α : Type} (m : JSMap α) (k : String)
    (h : ¬ m.any (fun p => p.1 = k) = true) : mapGet m k = none := by
  induction m with
  | nil => rfl
  | cons a m ih =>
    rw [mapGet_cons]
    simp only [List.any_cons, Bool.or_eq_true, not_or] at h
    rw [if_neg (by simpa using h.1)]
    exact ih h.2

theorem mapGet_mapSet {α : Type} (m : JSMap α) (k : String) (v : α) (k2 : String) :
    mapGet (mapSet m k v) k2 = if k2 = k then some v else mapGet m k2 := by
  unfold mapSet
  by_cases hany : m.any (fun p => p.1 = k) = true
  · rw [if_pos hany, mapGet_mapUpdate]
    by_cases h : k2 = k
    · rw [if_pos h, if_pos h]
      obtain ⟨w, hw⟩ := Option.isSome_iff_exists.mp (mapGet_isSome_of_any m k hany)
      rw [hw]
      rfl
    · rw [if_neg h, if_neg h]
  · rw [if_neg hany]
    by_cases h : k2 = k
    · subst h
      rw [if_pos rfl, mapGet, List.find?_append]
      have hfind : List.find? (fun p => (p.1 = k2 : Bool)) m = none := by
        have hnone := mapGet_none_of_not_any m k2 hany
        rw [mapGet] at hnone
        rcases hf : List.find? (fun p => (p.1 = k2 : Bool)) m with _ | w
        · exact hf
        · rw [hf] at hnone
          simp at hnone
      have hsingle : List.find? (fun p => (p.1 = k2 : Bool)) [(k2, v)] = some (k2, v) := by
        simp [List.find?]
      rw [hfind, hsingle]
      rfl
    · rw [if_neg h, mapGet, mapGet, List.find?_append]
      have hsingle : List.find? (fun p => (p.1 = k2 : Bool)) [(k, v)] = none := by
        have hkk : ¬ k = k2 := fun hh => h hh.symm
        simp [List.find?, hkk]
      rw [hsingle]
      rcases hf : List.find? (fun p => (p.1 = k2 : Bool)) m with _ | w <;> rw [hf] <;> rfl

theorem sorted_sortMessages (l : List Message) : msgsSorted (sortMessages l) :=
  List.sorted_insertionSort msgLe l

theorem mem_sortMessages {m : Message} {l : List Message} :
    m ∈ sortMessages l ↔ m ∈ l :=
  (List.perm_insertionSort msgLe l).mem_iff

theorem rewriteSender_timestamp (cs : List Conversation) (im : JSMap Identity)
    (m : Message) : (rewriteSender cs im m).timestamp = m.timestamp := by
  unfold rewriteSender
  split
  · split <;> rfl
  · rfl

theorem msgsSorted_map_rewrite (cs : List Conversation) (im : JSMap Identity)
    {l : List Message} (h : msgsSorted l) :
    msgsSorted (l.map (rewriteSender cs im)) := by
  refine List.Pairwise.map _ ?_ h
  intro a b hab
  unfold msgLe
  rw [rewriteSender_timestamp, rewriteSender_timestamp]
  exact hab

theorem mapGet_createIdentityMapGo :
    ∀ (ms : List IdentityMapping) (idx : Nat) (acc : JSMap Identity) (k : String)
      (v : Identity),
      mapGet (createIdentityMapGo idx ms acc) k = some v →
      (∃ j p1 p2, ms.get? j = some { person1 := some p1, person2 := some p2 } ∧
        (personKey p1.name p1.conversationId = k ∨
         personKey p2.name p2.conversationId = k) ∧
        v = identityOf (idx + j) p1 p2) ∨
      mapGet acc k = some v := by
  intro ms
  induction ms with
  | nil => exact fun idx acc k v h => Or.inr h
  | cons m rest ih =>
    intro idx acc k v h
    obtain ⟨mp1, mp2⟩ := m
    rcases hp1 : mp1 with _ | p1
    · subst hp1
      rw [createIdentityMapGo] at h
      rcases ih (idx + 1) acc k v h with ⟨j, q1, q2, hget, hmem, hv⟩ | hacc
      · refine Or.inl ⟨j + 1, q1, q2, by simpa using hget, hmem, ?_⟩
        rw [hv]
        congr 1
        omega
      · exact Or.inr hacc
    · subst hp1
      rcases hp2 : mp2 with _ | p2
      · subst hp2
        rw [createIdentityMapGo] at h
        rcases ih (idx + 1) acc k v h with ⟨j, q1, q2, hget, hmem, hv⟩ | hacc
        · refine Or.inl ⟨j + 1, q1, q2, by simpa using hget, hmem, ?_⟩
          rw [hv]
          congr 1
          omega
        · exact Or.inr hacc
      · subst hp2
        rw [createIdentityMapGo] at h
        rcases ih (idx + 1) _ k v h with ⟨j, q1, q2, hget, hmem, hv⟩ | hacc
        · refine Or.inl ⟨j + 1, q1, q2, by simpa using hget, hmem, ?_⟩
          rw [hv]
          congr 1
          omega
        · rw [mapGet_mapSet] at hacc
          by_cases hk2 : k = personKey p2.name p2.conversationId
          · rw [if_pos hk2] at hacc
            refine Or.inl ⟨0, p1, p2, by simp, Or.inr hk2.symm, ?_⟩
            simpa using (Option.some_inj.mp hacc).symm
          · rw [if_neg hk2, mapGet_mapSet] at hacc
            by_cases hk1 : k = personKey p1.name p1.conversationId
            · rw [if_pos hk1] at hacc
              refine Or.inl ⟨0, p1, p2, by simp, Or.inl hk1.symm, ?_⟩
              simpa using (Option.some_inj.mp hacc).symm
            · rw [if_neg hk1] at hacc
              exact Or.inr hacc

theorem identityMap_not_transitive (ms : List IdentityMapping) (kA kC : String)
    (vA vC : Identity)
    (hA : mapGet (createIdentityMap ms) kA = some vA)
    (hC : mapGet (createIdentityMap ms) kC = some vC)
    (hsep : ∀ m ∈ ms, ∀ p1 p2, m.person1 = some p1 → m.person2 = some p2 →
      ¬ ((personKey p1.name p1.conversationId = kA ∨
          personKey p2.name p2.conversationId = kA) ∧
         (personKey p1.name p1.conversationId = kC ∨
          personKey p2.name p2.conversationId = kC))) :
    vA.canonicalId ≠ vC.canonicalId := by
  rcases mapGet_createIdentityMapGo ms 0 [] kA vA hA with
    ⟨jA, p1A, p2A, hgetA, hmemA, hvA⟩ | habs
  swap
  · rw [mapGet_nil] at habs
    exact absurd habs (by simp)
  rcases mapGet_createIdentityMapGo ms 0 [] kC vC hC with
    ⟨jC, p1C, p2C, hgetC, hmemC, hvC⟩ | habs
  swap
  · rw [mapGet_nil] at habs
    exact absurd habs (by simp)
  intro heq
  rw [hvA, hvC] at heq
  have hj : jA = jC := by
    have : "merged-" ++ toString (0 + jA) = "merged-" ++ toString (0 + jC) := heq
    have := mergedId_inj this
    omega
  subst hj
  rw [hgetA] at hgetC
  have hrec := Option.some_inj.mp hgetC
  have hp1 : p1A = p1C := by
    have := congrArg IdentityMapping.person1 hrec
    simpa using this
  have hp2 : p2A = p2C := by
    have := congrArg IdentityMapping.person2 hrec
    simpa using this
  subst hp1
  subst hp2
  have hmem : { person1 := some p1A, person2 := some p2A : IdentityMapping } ∈ ms :=
    List.get?_mem hgetA
  exact hsep _ hmem p1A p2A rfl rfl ⟨hmemA, hmemC⟩

theorem mem_jsObjectEntriesOrder {α : Type} {x : String × α}
    {gs : List (String × α)} (h : x ∈ jsObjectEntriesOrder gs) : x ∈ gs := by
  unfold jsObjectEntriesOrder at h
  rcases List.mem_append.mp h with h1 | h2
  · exact List.mem_of_mem_filter ((List.perm_insertionSort _ _).mem_iff.mp h1)
  · exact List.mem_of_mem_filter h2

theorem parseConversations_each_file
    (jsonFn : String → String → Except String Conversation) :
    ∀ files : List JSFile,
      (parseConversations jsonFn files).conversations =
        files.filterMap (fun f => (parseConversationWith jsonFn f).toOption) ∧
      (parseConversations jsonFn files).errors =
        files.filterMap (fun f =>
          match parseConversationWith jsonFn f with
          | Except.ok _ => none
          | Except.error e => some { fileName := f.name, error := e }) := by
  intro files
  induction files with
  | nil => exact ⟨rfl, rfl⟩
  | cons f fs ih =>
    rcases hp : parseConversationWith jsonFn f with e | conv <;>
      · constructor
        · simp [parseConversations, hp, List.filterMap_cons, ih.1, Except.toOption]
        · simp [parseConversations, hp, List.filterMap_cons, ih.2]

theorem mem_addToGroups (gs : List (String × List Conversation)) (k : String)
    (c : Conversation) (g : String × List Conversation) (hg : g ∈ addToGroups gs k c)
    (x : Conversation) (hx : x ∈ g.2) : (∃ g0 ∈ gs, x ∈ g0.2) ∨ x = c := by
  unfold addToGroups at hg
  by_cases hany : gs.any (fun p => p.1 = k) = true
  · rw [if_pos hany] at hg
    rcases List.mem_map.mp hg with ⟨g0, hg0, hgeq⟩
    by_cases hk : g0.1 = k
    · rw [if_pos hk] at hgeq
      subst hgeq
      rcases List.mem_append.mp hx with h1 | h2
      · exact Or.inl ⟨g0, hg0, h1⟩
      · exact Or.inr (by simpa using h2)
    · rw [if_neg hk] at hgeq
      subst hgeq
      exact Or.inl ⟨g0, hg0, hx⟩
  · rw [if_neg hany] at hg
    rcases List.mem_append.mp hg with h1 | h2
    · exact Or.inl ⟨g, h1, hx⟩
    · have hgeq : g = (k, [c]) := by simpa using h2
      subst hgeq
      exact Or.inr (by simpa using hx)

theorem mem_groups_foldl :
    ∀ (convs : List Conversation) (im : JSMap Identity)
      (gs : List (String × List Conversation)) (g : String × List Conversation)
      (c : Conversation),
      g ∈ convs.foldl
        (fun gs conv => addToGroups gs (conversationGroupKey im conv) conv) gs →
      c ∈ g.2 → (∃ g0 ∈ gs, c ∈ g0.2) ∨ c ∈ convs := by
  intro convs
  induction convs with
  | nil => exact fun im gs g c hg hc => Or.inl ⟨g, hg, hc⟩
  | cons conv cs ih =>
    intro im gs g c hg hc
    rw [List.foldl_cons] at hg
    rcases ih im _ g c hg hc with ⟨g0, hg0, hcg0⟩ | hcs
    · rcases mem_addToGroups _ _ _ g0 hg0 c hcg0 with hgs | heq
      · exact Or.inl hgs
      · exact Or.inr (heq ▸ List.mem_cons_self _ _)
    · exact Or.inr (List.mem_cons_of_mem _ hcs)

theorem sorted_mergeConversationGroup (group : List Conversation)
    (im : JSMap Identity) : msgsSorted (mergeConversationGroup group im).messages := by
  unfold mergeConversationGroup
  dsimp only
  exact msgsSorted_map_rewrite _ _ (sorted_sortMessages _)

theorem sorted_mergeConversations (convs : List Conversation)
    (maps : List IdentityMapping) (hin : ∀ c ∈ convs, msgsSorted c.messages) :
    ∀ conv ∈ mergeConversations convs maps, msgsSorted conv.messages := by
  intro conv hconv
  unfold mergeConversations at hconv
  by_cases hemp : maps.isEmpty
  · rw [if_pos hemp] at hconv
    exact hin conv hconv
  · rw [if_neg hemp] at hconv
    dsimp only at hconv
    rcases List.mem_map.mp hconv with ⟨g, hg, hgeq⟩
    have hg2 := mem_jsObjectEntriesOrder hg
    have hmem : ∀ c ∈ g.2, c ∈ convs := by
      intro c hc
      rcases mem_groups_foldl convs _ [] g c hg2 hc with ⟨g0, hg0, _⟩ | h
      · exact absurd hg0 (List.not_mem_nil g0)
      · exact h
    rcases hshape : g.2 with _ | ⟨c, rest⟩
    · rw [hshape] at hgeq
      rw [← hgeq]
      exact sorted_mergeConversationGroup [] _
    · rcases rest with _ | ⟨c2, rest2⟩
      · rw [hshape] at hgeq
        rw [← hgeq]
        exact hin c (hmem c (by rw [hshape]; exact List.mem_cons_self _ _))
      · rw [hshape] at hgeq
        rw [← hgeq]
        exact sorted_mergeConversationGroup _ _

theorem insertAbsent_inv (pm : JSMap Participant) (n : String) (e : Participant)
    (hname : e.name = n)
    (h : (pm.map (fun q => q.1)).Nodup ∧ ∀ q ∈ pm, q.2.name = q.1) :
    (((if pm.any (fun q => q.1 = n) then pm else pm ++ [(n, e)]).map
        (fun q => q.1)).Nodup) ∧
      ∀ q ∈ (if pm.any (fun q => q.1 = n) then pm else pm ++ [(n, e)]),
        q.2.name = q.1 := by
  split_ifs with hany
  · exact h
  · constructor
    · rw [List.map_append]
      rw [List.nodup_append]
      refine ⟨h.1, by simp, ?_⟩
      intro a ha hb
      have hbn : a = n := by simpa using hb
      subst hbn
      rcases List.mem_map.mp ha with ⟨q, hq, hqa⟩
      exact hany (List.any_eq_true.mpr ⟨q, hq, by simpa using hqa⟩)
    · intro q hq
      rcases List.mem_append.mp hq with h1 | h2
      · exact h.2 q h1
      · have : q = (n, e) := by simpa using h2
        subst this
        simpa using hname

theorem canonicalEntryStep_inv (im : JSMap Identity) (conv : Conversation)
    (pm : JSMap Participant) (p : Participant)
    (h : (pm.map (fun q => q.1)).Nodup ∧ ∀ q ∈ pm, q.2.name = q.1) :
    (((canonicalEntryStep im conv pm p).map (fun q => q.1)).Nodup) ∧
      ∀ q ∈ canonicalEntryStep im conv pm p, q.2.name = q.1 := by
  unfold canonicalEntryStep
  exact insertAbsent_inv pm _ _ rfl h

theorem foldl_canonicalEntryStep_inv (im : JSMap Identity) :
    ∀ (convs : List Conversation) (pm : JSMap Participant),
      ((pm.map (fun q => q.1)).Nodup ∧ ∀ q ∈ pm, q.2.name = q.1) →
      (((convs.foldl (fun pm conv =>
          conv.participants.foldl (canonicalEntryStep im conv) pm) pm).map
            (fun q => q.1)).Nodup ∧
        ∀ q ∈ convs.foldl (fun pm conv =>
          conv.participants.foldl (canonicalEntryStep im conv) pm) pm,
          q.2.name = q.1) := by
  intro convs
  induction convs with
  | nil => exact fun pm h => h
  | cons conv cs ihc =>
    intro pm h
    rw [List.foldl_cons]
    apply ihc
    have hinner : ∀ (ps : List Participant) (pm : JSMap Participant),
        ((pm.map (fun q => q.1)).Nodup ∧ ∀ q ∈ pm, q.2.name = q.1) →
        (((ps.foldl (canonicalEntryStep im conv) pm).map (fun q => q.1)).Nodup ∧
          ∀ q ∈ ps.foldl (canonicalEntryStep im conv) pm, q.2.name = q.1) := by
      intro ps
      induction ps with
      | nil => exact fun pm h => h
      | cons p ps ihp =>
        intro pm h
        rw [List.foldl_cons]
        exact ihp _ (canonicalEntryStep_inv im conv pm p h)
    exact hinner _ pm h

theorem getCanonicalParticipants_names_nodup (convs : List Conversation)
    (im : JSMap Identity) :
    ((getCanonicalParticipants convs im).map (fun p => p.name)).Nodup := by
  have hfin := foldl_canonicalEntryStep_inv im convs [] ⟨by simp, by simp⟩
  unfold getCanonicalParticipants
  rw [List.map_map]
  have heq : (convs.foldl (fun pm conv =>
      conv.participants.foldl (canonicalEntryStep im conv) pm)
      ([] : JSMap Participant)).map ((fun p => p.name) ∘ (fun q => q.2)) =
      (convs.foldl (fun pm conv =>
        conv.participants.foldl (canonicalEntryStep im conv) pm)
        ([] : JSMap Participant)).map (fun q => q.1) := by
    apply List.map_congr_left
    intro q hq
    exact hfin.2 q hq
  rw [heq]
  exact hfin.1

theorem parseFacebookJSON_message_src (d : FBData) (fn : String) (m : Message)
    (hm : m ∈ (parseFacebookJSON d fn).messages) :
    ∃ r ∈ d.messages, m = fbBuildMessage r ∧ fbHasPayload r = true := by
  unfold parseFacebookJSON at hm
  dsimp only at hm
  rw [mem_sortMessages] at hm
  have hm2 := List.mem_of_mem_filter hm
  rcases List.mem_map.mp hm2 with ⟨r, hr, hmr⟩
  exact ⟨r, List.mem_of_mem_filter hr, hmr.symm, List.of_mem_filter hr⟩

theorem fbBuildMessage_no_link (r : FBMessage) (hpay : fbHasPayload r = true) :
    (fbBuildMessage r).mediaType ≠ some "link" := by
  unfold fbBuildMessage
  dsimp only
  unfold fbHasPayload at hpay
  split_ifs with h1 h2 h3 h4 h5 h6 <;> simp_all

theorem parseWhatsAppFormat_ok_sorted {content fn : String} {conv : Conversation}
    (h : parseWhatsAppFormat content fn = Except.ok conv) :
    msgsSorted conv.messages := by
  unfold parseWhatsAppFormat at h
  rcases hfold : (splitLines content).foldlM waStep
      { messages := [], participantSet := [], currentMessage := none } with e | final
  · rw [hfold] at h
    exact absurd h (by simp [Except.map])
  · rw [hfold] at h
    simp only [Except.map] at h
    have hconv := Except.ok.inj h
    rw [← hconv]
    exact sorted_sortMessages _

theorem waStep_continuation_aux (st : WAState) (line : String) (m : Message)
    (hmsg : matchWhatsAppMessage line = none)
    (hsys : matchWhatsAppSystem line = none)
    (hcur : st.currentMessage = some m)
    (hblank : ¬ jsTrim line = "") :
    waStep st line =
      Except.ok
        { messages := st.messages, participantSet := st.participantSet,
          currentMessage := some ({ m with content := m.content ++ "\n" ++ line }) } := by
  unfold waStep
  rw [hmsg, hsys, hcur]
  dsimp only
  rw [if_pos (by simpa using hblank)]

/-! ## Claim theorems -/

/-- C1: the claim states that a WhatsApp-format TXT file is detected as
`whatsapp` and routed to the WhatsApp adapter.  On the code this fails:
`detectFormat` can never return the tag `whatsapp` (first conjunct), and
the concrete WhatsApp file yields one error entry and no conversation
(second conjunct), even though the WhatsApp adapter itself — dead code
never dispatched by the router — parses the same content into a
conversation with source `whatsapp` (third conjunct). -/
theorem C1_whatsapp_never_detected :
    (∀ (file : JSFile) (content : String), detectFormat file content ≠ "whatsapp") ∧
    (∀ jsonFn : String → String → Except String Conversation,
      parseConversations jsonFn [waFile] =
        { conversations := [],
          errors := [⟨"chat.txt", "Failed to parse chat.txt: Text file format not recognized. Currently supported: Line Messenger"⟩] }) ∧
    ((parseWhatsAppFormat waFile.content "chat.txt").toOption.map
      (fun c => c.source) = some "whatsapp") := by
  refine ⟨?_, fun jsonFn => rfl, by decide⟩
  intro file content
  unfold detectFormat
  dsimp only
  split_ifs <;> decide

/-- C3: the claim states a share-only Facebook record is emitted as
`[Shared link]`.  On the code this fails: the payload filter omits
`msg.share`, so the share-only record (and the record with no payload
fields) is dropped and only the text record survives (first conjunct);
consequently the `[Shared link]`/`mediaType link` branch is dead — no
emitted message ever carries it (second conjunct). -/
theorem C3_facebook_share_dropped :
    (parseFacebookJSON fbProbeData "f.json").messages = [mkMsg "A" "hey" 7] ∧
    (∀ (d : FBData) (fn : String) (m : Message),
      m ∈ (parseFacebookJSON d fn).messages → m.mediaType ≠ some "link") := by
  constructor
  · decide
  · intro d fn m hm
    rcases parseFacebookJSON_message_src d fn m hm with ⟨r, _, hmr, hpay⟩
    rw [hmr]
    exact fbBuildMessage_no_link r hpay

/-- C3 witness: the dead-branch conjunct applied to the surviving concrete
message. -/
theorem C3_facebook_share_dropped_witness :
    (mkMsg "A" "hey" 7) ∈ (parseFacebookJSON fbProbeData "f.json").messages ∧
    (mkMsg "A" "hey" 7).mediaType ≠ some "link" :=
  ⟨by decide, C3_facebook_share_dropped.2 fbProbeData "f.json" (mkMsg "A" "hey" 7)
    (by decide)⟩

/-- C4 counterexample: the claim states a Line file with a valid header and
no recognized message lines yields an `EmptyResultSet` error entry and no
Conversation.  On the code the batch result for such a file has an empty
error list and a (zero-message) conversation. -/
theorem C4_counterexample :
    (parseConversations noJson [lineEmptyFile]).errors = [] ∧
    (parseConversations noJson [lineEmptyFile]).conversations ≠ [] := by
  constructor <;> decide

/-- C4 (amended): a file that parses without throwing but yields zero
messages and zero participants contributes one Conversation (with
`totalMessages = 0` and empty participants) and no error entry; no
`EmptyResultSet` error kind exists in the code. -/
theorem C4_empty_parse_yields_conversation :
    ∀ jsonFn : String → String → Except String Conversation,
      parseConversations jsonFn [lineEmptyFile] =
        { conversations := [lineEmptyConv], errors := [] } :=
  fun _ => rfl

/-- C5: every adapter sorts its emitted `messages` non-decreasing by
timestamp (WhatsApp, Line, Facebook, Instagram), every merged group is
re-sorted, and every conversation coming out of `mergeConversations` is
sorted whenever the inputs are (pass-through conversations keep their
adapter-established order). -/
theorem C5_messages_sorted :
    (∀ (content fn : String) (conv : Conversation),
      parseWhatsAppFormat content fn = Except.ok conv → msgsSorted conv.messages) ∧
    (∀ content fn : String, msgsSorted (parseLineFormat content fn).messages) ∧
    (∀ (d : FBData) (fn : String), msgsSorted (parseFacebookJSON d fn).messages) ∧
    (∀ (d : IGData) (fn : String), msgsSorted (parseInstagramJSON d fn).messages) ∧
    (∀ (group : List Conversation) (im : JSMap Identity),
      msgsSorted (mergeConversationGroup group im).messages) ∧
    (∀ (convs : List Conversation) (maps : List IdentityMapping),
      (∀ c ∈ convs, msgsSorted c.messages) →
      ∀ conv ∈ mergeConversations convs maps, msgsSorted conv.messages) := by
  refine ⟨fun _ _ _ h => parseWhatsAppFormat_ok_sorted h, ?_, ?_, ?_,
    sorted_mergeConversationGroup, sorted_mergeConversations⟩
  · intro content fn
    unfold parseLineFormat
    dsimp only
    exact sorted_sortMessages _
  · intro d fn
    unfold parseFacebookJSON
    dsimp only
    exact sorted_sortMessages _
  · intro d fn
    unfold parseInstagramJSON
    dsimp only
    exact sorted_sortMessages _

/-- C5 witness: sortedness at a concrete Line file with out-of-order input
lines, a concrete WhatsApp parse, and a concrete merged conversation. -/
theorem C5_messages_sorted_witness :
    msgsSorted (parseLineFormat lineTwoMsgFile "c.txt").messages ∧
    msgsSorted (((parseWhatsAppFormat "2021-06-21, 4:23 a.m. - Tom: Hello" "c.txt").toOption.getD
      defaultConversation).messages) ∧
    msgsSorted (((mergeConversations [convFB9, convIG9] [mapAlice]).getD 0
      defaultConversation).messages) := by
  refine ⟨C5_messages_sorted.2.1 lineTwoMsgFile "c.txt", ?_, ?_⟩
  · exact C5_messages_sorted.1 "2021-06-21, 4:23 a.m. - Tom: Hello" "c.txt" _ (by rfl)
  · exact C5_messages_sorted.2.2.2.2.2 [convFB9, convIG9] [mapAlice] (by decide) _
      (by decide)

/-- C6: identity mappings are not transitively composed.  Generally, two
keys that the identity map resolves, such that no single complete mapping
mentions both, receive distinct canonicalIds (first conjunct, covering
A↔B and B↔C declared by distinct mappings with no direct A↔C).
Concretely, for mappings A↔B and B↔C, A resolves to merged-0 and C to
merged-1, the three conversations holding A, B and C split into exactly
two groups, and A's conversation is not grouped or merged with C's. -/
theorem C6_mappings_not_transitive :
    (∀ (ms : List IdentityMapping) (kA kC : String) (vA vC : Identity),
      mapGet (createIdentityMap ms) kA = some vA →
      mapGet (createIdentityMap ms) kC = some vC →
      (∀ m ∈ ms, ∀ p1 p2, m.person1 = some p1 → m.person2 = some p2 →
        ¬ ((personKey p1.name p1.conversationId = kA ∨
            personKey p2.name p2.conversationId = kA) ∧
           (personKey p1.name p1.conversationId = kC ∨
            personKey p2.name p2.conversationId = kC))) →
      vA.canonicalId ≠ vC.canonicalId) ∧
    (mapGet (createIdentityMap [mapAB, mapBC]) (personKey "A" "ca") = some identAB) ∧
    (mapGet (createIdentityMap [mapAB, mapBC]) (personKey "C" "cc") = some identBC) ∧
    (conversationGroupKey (createIdentityMap [mapAB, mapBC]) convWithA ≠
      conversationGroupKey (createIdentityMap [mapAB, mapBC]) convWithC) ∧
    ((mergeConversations [convWithA, convWithB, convWithC] [mapAB, mapBC]).length = 2) ∧
    ((groupConversationsByIdentity [convWithA, convWithB, convWithC]
        (createIdentityMap [mapAB, mapBC])).map
      (fun g => (g.1, g.2.map (fun c => c.conversationId))) =
      [("merged-0", ["ca"]), ("merged-1", ["cb", "cc"])]) := by
  refine ⟨fun ms kA kC vA vC hA hC hsep =>
    identityMap_not_transitive ms kA kC vA vC hA hC hsep,
    by decide, by decide, by decide, by decide, by decide⟩

/-- C6 witness: the non-transitivity conjunct applied to the concrete
A↔B, B↔C mapping list. -/
theorem C6_mappings_not_transitive_witness :
    identAB.canonicalId ≠ identBC.canonicalId := by
  refine C6_mappings_not_transitive.1 [mapAB, mapBC] (personKey "A" "ca")
    (personKey "C" "cc") identAB identBC (by decide) (by decide) ?_
  intro m hm p1 p2 hp1 hp2
  rcases List.mem_cons.mp hm with rfl | hm2
  · have h1 : mkPerson "A" "facebook" "ca" = p1 := Option.some.inj hp1
    have h2 : mkPerson "B" "instagram" "cb" = p2 := Option.some.inj hp2
    subst h1
    subst h2
    decide
  · rcases List.mem_cons.mp hm2 with rfl | hm3
    · have h1 : mkPerson "B" "instagram" "cb" = p1 := Option.some.inj hp1
      have h2 : mkPerson "C" "line" "cc" = p2 := Option.some.inj hp2
      subst h1
      subst h2
      decide
    · exact absurd hm3 (List.not_mem_nil m)

theorem parseConversations_length
    (jsonFn : String → String → Except String Conversation) :
    ∀ files : List JSFile,
      (parseConversations jsonFn files).conversations.length +
        (parseConversations jsonFn files).errors.length = files.length := by
  intro files
  induction files with
  | nil => rfl
  | cons f fs ih =>
    rcases hp : parseConversationWith jsonFn f with e | conv <;>
      · simp only [parseConversations, hp, List.length_cons]
        omega

/-- C7: in every batch, the conversation list is exactly the per-file
successes (in file order), the error list exactly the per-file failures,
and their lengths sum to the number of files — so each file contributes
exactly one conversation or exactly one error, never both and never
neither, and one file's failure leaves every other file's contribution
unchanged. -/
theorem C7_batch_file_accounting :
    ∀ (jsonFn : String → String → Except String Conversation)
      (files : List JSFile),
      (parseConversations jsonFn files).conversations =
        files.filterMap (fun f => (parseConversationWith jsonFn f).toOption) ∧
      (parseConversations jsonFn files).errors =
        files.filterMap (fun f =>
          match parseConversationWith jsonFn f with
          | Except.ok _ => none
          | Except.error e => some { fileName := f.name, error := e }) ∧
      (parseConversations jsonFn files).conversations.length +
        (parseConversations jsonFn files).errors.length = files.length :=
  fun jsonFn files => ⟨(parseConversations_each_file jsonFn files).1,
    (parseConversations_each_file jsonFn files).2,
    parseConversations_length jsonFn files⟩

/-- C8: `decodeFacebookText` maps the mis-encoded byte string of café to
the literal café, and `parseFacebookJSON` routes every text field through
it: participant names, every emitted message's sender (and its content
when the record has text content), and the title. -/
theorem C8_facebook_reencoding :
    decodeFacebookText "cafÃ©" = "café" ∧
    (∀ (d : FBData) (fn : String),
      (parseFacebookJSON d fn).participants.map (fun p => p.name) =
        d.participants.map (fun p => decodeFacebookText p.name)) ∧
    (∀ (d : FBData) (fn : String) (m : Message),
      m ∈ (parseFacebookJSON d fn).messages →
      ∃ r ∈ d.messages, m.sender = decodeFBField r.sender_name ∧
        (strTruthy r.content = true → m.content = decodeFBField r.content)) ∧
    (∀ (d : FBData) (fn : String) (t : String), d.title = some t →
      ¬ decodeFacebookText t = "" →
      (parseFacebookJSON d fn).title = decodeFacebookText t) := by
  refine ⟨by decide, ?_, ?_, ?_⟩
  · intro d fn
    unfold parseFacebookJSON
    dsimp only
    rw [List.map_map]
    rfl
  · intro d fn m hm
    rcases parseFacebookJSON_message_src d fn m hm with ⟨r, hr, hmr, _⟩
    refine ⟨r, hr, ?_, ?_⟩
    · rw [hmr]
      rfl
    · intro htr
      rw [hmr]
      unfold fbBuildMessage
      dsimp only
      rw [if_pos htr]
  · intro d fn t ht hne
    unfold parseFacebookJSON
    dsimp only
    rw [ht]
    have htr : strTruthy (some (decodeFBField (some t))) = true := by
      simp [strTruthy, decodeFBField, hne]
    rw [if_pos htr]
    rfl

/-- C8 witness: the field-routing conjuncts applied to the concrete
mis-encoded café export. -/
theorem C8_facebook_reencoding_witness :
    (∃ r ∈ fbCafeData.messages,
      (mkMsg "café" "café" 9).sender = decodeFBField r.sender_name ∧
      (strTruthy r.content = true →
        (mkMsg "café" "café" 9).content = decodeFBField r.content)) ∧
    (parseFacebookJSON fbCafeData "f.json").title = decodeFacebookText "cafÃ©" := by
  constructor
  · exact C8_facebook_reencoding.2.2.1 fbCafeData "f.json" (mkMsg "café" "café" 9)
      (by decide)
  · exact C8_facebook_reencoding.2.2.2 fbCafeData "f.json" "cafÃ©" rfl (by decide)

/-- C9 counterexample: the claim states alternateNames/platforms are
aggregated over all source participants folding into a canonical name.  On
the code the first occurrence wins: Bob, unmapped and present in both a
facebook and an instagram member conversation, ends up with platforms
[facebook] only. -/
theorem C9_counterexample :
    ((mergeConversationGroup [convFB9, convIG9] idMapAlice).participants.filter
      (fun p => p.name = "Bob")).map (fun p => p.platforms) = [["facebook"]] := by
  decide

/-- C9 (amended): merged canonical participants are de-duplicated by
canonical name (names pairwise distinct, first conjunct), and each carries
the alternateNames/platforms of the first source participant folding into
that name — the identity entry's lists for a mapped participant, the
participant's own singleton name and platform otherwise; later same-name
participants contribute nothing (concrete second conjunct). -/
theorem C9_participants_first_wins :
    (∀ (convs : List Conversation) (im : JSMap Identity),
      ((mergeConversationGroup convs im).participants.map (fun p => p.name)).Nodup) ∧
    ((mergeConversationGroup [convFB9, convIG9] idMapAlice).participants.map
      (fun p => (p.name, p.platform, p.alternateNames, p.platforms)) =
      [("Alice", "multiple", ["Alice", "alice_ig"], ["facebook", "instagram"]),
       ("Bob", "facebook", ["Bob"], ["facebook"])]) := by
  constructor
  · intro convs im
    unfold mergeConversationGroup
    dsimp only
    exact getCanonicalParticipants_names_nodup _ _
  · decide

/-- C10: in the WhatsApp adapter, a non-blank line matching neither regex
while a message is in progress is appended to that message's content with
a newline separator (first conjunct, the loop step); end to end, the
two-line input produces exactly one message with content spanning both
lines (second conjunct). -/
theorem C10_whatsapp_continuation :
    (∀ (st : WAState) (line : String) (m : Message),
      matchWhatsAppMessage line = none → matchWhatsAppSystem line = none →
      st.currentMessage = some m → ¬ jsTrim line = "" →
      waStep st line =
        Except.ok
          { messages := st.messages, participantSet := st.participantSet,
            currentMessage := some ({ m with content := m.content ++ "\n" ++ line }) }) ∧
    ((parseWhatsAppFormat "2021-06-21, 4:23 a.m. - Tom: Hello\nworld" "w.txt").toOption.map
      (fun c => c.messages.map (fun m2 => (m2.sender, m2.content))) =
      some [("Tom", "Hello\nworld")]) :=
  ⟨waStep_continuation_aux, by decide⟩

/-- C10 witness: the continuation step applied to the concrete in-progress
state and the line world. -/
theorem C10_whatsapp_continuation_witness :
    waStep waStateInProgress "world" =
      Except.ok
        { messages := waStateInProgress.messages,
          participantSet := waStateInProgress.participantSet,
          currentMessage := some ({ waMsgInProgress with
            content := waMsgInProgress.content ++ "\n" ++ "world" }) } :=
  C10_whatsapp_continuation.1 waStateInProgress "world" waMsgInProgress
    (by decide) (by decide) rfl (by decide)
